import Mathlib

/-! Shallow embedding of the haptik HAProxy stats-socket client: the command
encoding layer (src/commands.rs, src/requests.rs) and the response decoding
layer (src/parsers.rs, src/models.rs, src/responses.rs, src/errors.rs),
together with theorems settling the specification claims about them.

Strings are modelled at the character level; the wire protocol is ASCII text,
on which Rust byte indices and byte lengths coincide with character indices
and lengths.  A buffered reader is modelled by the sequence of results its
reads produce: the line-iterator based decoders receive the list of results
of `BufRead::lines` (each item an I/O error or a line without its newline),
and the `read_line` based decoders receive the result of that single read
(the line including its trailing newline, or the empty string at end of
stream). -/

deriving instance DecidableEq for Except

namespace Haptik

/-- Model of a `std::io::Error` value: an opaque token carrying a code. -/
structure IoErr where
  code : Nat
deriving DecidableEq

/-- The error taxonomy of `src/errors.rs`. -/
inductive Error : Type where
  | ParseFailure : Error
  | UnknownId : Error
  | MissingParameters : Error
  | IoError : IoErr → Error
deriving DecidableEq

/-- Character-level `str::starts_with`: first argument is the pattern, second
the scanned text. -/
def startsWithL : List Char → List Char → Bool
  | [], _ => true
  | _ :: _, [] => false
  | p :: ps, c :: cs => p == c && startsWithL ps cs

/-- Rust `s.starts_with(p)`. -/
def strStartsWith (s p : String) : Bool :=
  startsWithL p.toList s.toList

/-- First occurrence of `sep`: the characters strictly before it and strictly
after it, or `none` when absent. -/
def breakAt (sep : Char) : List Char → Option (List Char × List Char)
  | [] => none
  | c :: cs =>
    if c = sep then some ([], cs)
    else
      match breakAt sep cs with
      | none => none
      | some (pre, post) => some (c :: pre, post)

/-- Rust `s.splitn(2, sep)` on character lists: at most two parts, the second
part keeping any further separators. -/
def splitn2 (sep : Char) (cs : List Char) : List (List Char) :=
  match breakAt sep cs with
  | none => [cs]
  | some (pre, post) => [pre, post]

/-- Rust `s.splitn(3, sep)` on character lists. -/
def splitn3 (sep : Char) (cs : List Char) : List (List Char) :=
  match breakAt sep cs with
  | none => [cs]
  | some (pre, post) => pre :: splitn2 sep post

/-- Rust `s.splitn(2, sep)` collected to strings. -/
def splitn2s (sep : Char) (s : String) : List String :=
  (splitn2 sep s.toList).map fun cs => String.mk cs

/-- Rust `s.splitn(3, sep)` collected to strings. -/
def splitn3s (sep : Char) (s : String) : List String :=
  (splitn3 sep s.toList).map fun cs => String.mk cs

/-- Rust `s.rsplitn(2, sep)` collected to strings: the characters after the
last separator first, then the rest; the whole string when `sep` is absent. -/
def rsplitn2s (sep : Char) (s : String) : List String :=
  (splitn2 sep s.toList.reverse).map fun cs => String.mk cs.reverse

/-- Rust `s.split(sep)` (unlimited parts) on character lists. -/
def splitAllL (sep : Char) : List Char → List (List Char)
  | [] => [[]]
  | c :: cs =>
    if c = sep then [] :: splitAllL sep cs
    else
      match splitAllL sep cs with
      | [] => [[c]]
      | p :: ps => (c :: p) :: ps

/-- Rust `s.split(sep)` collected to strings. -/
def splitAll (sep : Char) (s : String) : List String :=
  (splitAllL sep s.toList).map fun cs => String.mk cs

/-- Remove the last character when one exists (Rust `String::pop`). -/
def strDropLast (s : String) : String :=
  String.mk s.toList.dropLast

/-- Drop the first `k` characters (the byte slice `s[k..]` on ASCII text). -/
def strDrop (k : Nat) (s : String) : String :=
  String.mk (s.toList.drop k)

/-- Rust `char::to_digit(10)`. -/
def decDigit? (c : Char) : Option Nat :=
  if 48 ≤ c.toNat ∧ c.toNat ≤ 57 then some (c.toNat - 48) else none

/-- Rust `char::to_digit(16)`. -/
def hexDigit? (c : Char) : Option Nat :=
  if 48 ≤ c.toNat ∧ c.toNat ≤ 57 then some (c.toNat - 48)
  else if 97 ≤ c.toNat ∧ c.toNat ≤ 102 then some (c.toNat - 87)
  else if 65 ≤ c.toNat ∧ c.toNat ≤ 70 then some (c.toNat - 55)
  else none

/-- Value of a digit string, most significant digit first; `none` on any
character that is not a digit of the radix. -/
def digitsVal? (radix : Nat) (digit? : Char → Option Nat) (ds : List Char) : Option Nat :=
  ds.foldl (fun acc c => acc.bind fun a => (digit? c).map fun d => a * radix + d) (some 0)

/-- Rust `from_str_radix` for unsigned integer types: an optional leading
plus sign, then at least one digit; fails on an empty digit string, a
non-digit, or a value at or above the type's bound. -/
def rustParseUnsigned (radix bound : Nat) (digit? : Char → Option Nat) (s : String) : Option Nat :=
  match s.toList with
  | [] => none
  | cs =>
    let ds := match cs with
      | '+' :: rest => rest
      | _ => cs
    match ds with
    | [] => none
    | _ =>
      match digitsVal? radix digit? ds with
      | some v => if v < bound then some v else none
      | none => none

/-- Rust `u32::from_str`. -/
def rustParseU32 (s : String) : Option Nat :=
  rustParseUnsigned 10 (2 ^ 32) decDigit? s

/-- Rust `u64::from_str_radix(s, 16)`. -/
def rustParseU64Hex (s : String) : Option Nat :=
  rustParseUnsigned 16 (2 ^ 64) hexDigit? s

/-- Rust `i32::from_str`: optional sign, decimal digits, checked against the
two's-complement range. -/
def rustParseI32 (s : String) : Option Int :=
  match s.toList with
  | [] => none
  | cs =>
    let sd : Bool × List Char := match cs with
      | '+' :: rest => (false, rest)
      | '-' :: rest => (true, rest)
      | _ => (false, cs)
    match sd.2 with
    | [] => none
    | _ =>
      match digitsVal? 10 decDigit? sd.2 with
      | some v =>
        if sd.1 then (if v ≤ 2 ^ 31 then some (-(v : Int)) else none)
        else (if v < 2 ^ 31 then some (v : Int) else none)
      | none => none

/-- Decoded ACL listing row (`src/responses.rs`). -/
structure Acl where
  id : Int
  reference : Option String
  description : String
deriving DecidableEq

/-- The middle field with its first and last characters stripped
(`reference[1..reference.len() - 1]`). -/
def stripEnds (r : String) : String :=
  String.mk ((r.toList.drop 1).dropLast)

/-- `impl FromStr for Acl` (src/responses.rs): split into at most 3 fields on
space; a middle field of exactly `()` gives no reference, any other middle
field must have length at least 3 and is stripped of its first and last
characters; the first field is parsed as an `i32`. -/
def Acl.fromStr (s : String) : Except Error Acl :=
  match splitn3s ' ' s with
  | [idStr, ref, desc] =>
    if ref = "()" then
      match rustParseI32 idStr with
      | some n => .ok ⟨n, none, desc⟩
      | none => .error .ParseFailure
    else if ref.length < 3 then .error .ParseFailure
    else
      match rustParseI32 idStr with
      | some n => .ok ⟨n, some (stripEnds ref), desc⟩
      | none => .error .ParseFailure
  | _ => .error .ParseFailure

/-- One ACL member (`src/models.rs`), generic over the value type. -/
structure AclEntry (V : Type) where
  id : Nat
  value : V
deriving DecidableEq

/-- `impl FromStr for AclEntry` (src/models.rs): split into at most 2 fields
on space; the first field must start with `0x` and its remainder is parsed
base-16 as a `u64`; the second field goes through the caller-chosen value
parser `p`, whose error detail is discarded. -/
def AclEntry.fromStr {V E : Type} (p : String → Except E V) (s : String) :
    Except Error (AclEntry V) :=
  match splitn2s ' ' s with
  | [idS, valS] =>
    if strStartsWith idS "0x" then
      match rustParseU64Hex (strDrop 2 idS) with
      | some n =>
        match p valS with
        | .ok v => .ok ⟨n, v⟩
        | .error _ => .error .ParseFailure
      | none => .error .ParseFailure
    else .error .ParseFailure
  | _ => .error .ParseFailure

/-- Privilege level of a session (`src/responses.rs`). -/
inductive Level : Type where
  | Admin : Level
  | Operator : Level
  | User : Level
deriving DecidableEq

/-- `impl FromStr for Level`: exact match against the three literals. -/
def Level.fromStr (s : String) : Except Error Level :=
  if s = "admin" then .ok .Admin
  else if s = "operator" then .ok .Operator
  else if s = "user" then .ok .User
  else .error .ParseFailure

/-- Model of `std::net::SocketAddr`: either a v4 or a v6 address, the address
types kept abstract (the std library address parsers are external to this
repository). -/
inductive SockAddr (A B : Type) : Type where
  | v4 : A → SockAddr A B
  | v6 : B → SockAddr A B
deriving DecidableEq

/-- Address of a configured CLI listener (`src/responses.rs`), generic over
the abstract v4/v6 socket-address types. -/
inductive CliSocketAddr (A B : Type) : Type where
  | Unix : String → CliSocketAddr A B
  | Ip : SockAddr A B → CliSocketAddr A B
  | SocketPair : String → CliSocketAddr A B
  | AbstractSocket : String → CliSocketAddr A B
  | Unknown : CliSocketAddr A B
deriving DecidableEq

/-- `impl FromStr for CliSocketAddr` (src/responses.rs): split on the first
`@` and dispatch on the scheme; `p4` and `p6` stand for the std library
`SocketAddrV4::from_str` and `SocketAddrV6::from_str`, whose error detail the
source discards. -/
def CliSocketAddr.fromStr {A B : Type} (p4 : String → Option A) (p6 : String → Option B)
    (s : String) : Except Error (CliSocketAddr A B) :=
  match splitn2s '@' s with
  | [one] => if one = "unknown" then .ok .Unknown else .error .ParseFailure
  | [scheme, addr] =>
    if scheme = "unix" then .ok (.Unix addr)
    else if scheme = "ipv4" then
      match p4 addr with
      | some a => .ok (.Ip (.v4 a))
      | none => .error .ParseFailure
    else if scheme = "ipv6" then
      match p6 addr with
      | some b => .ok (.Ip (.v6 b))
      | none => .error .ParseFailure
    else if scheme = "sockpair" then .ok (.SocketPair addr)
    else if scheme = "abns" then .ok (.AbstractSocket addr)
    else .error .ParseFailure
  | _ => .error .ParseFailure

/-- Process set of a CLI listener (`src/responses.rs`). -/
inductive CliSocketProcesses : Type where
  | All : CliSocketProcesses
  | List : List Nat → CliSocketProcesses
deriving DecidableEq

/-- Rust `Result` collection: the first error aborts, otherwise the list of
successes in order (`collect::<Result<Vec<_>, _>>`). -/
def collectE {ε α : Type} : List (Except ε α) → Except ε (List α)
  | [] => .ok []
  | x :: xs =>
    match x with
    | .error e => .error e
    | .ok a =>
      match collectE xs with
      | .error e => .error e
      | .ok rest => .ok (a :: rest)

/-- `impl FromStr for CliSocketProcesses`: the literal `all`, or a
comma-separated list of `u32` values. -/
def CliSocketProcesses.fromStr (s : String) : Except Error CliSocketProcesses :=
  if s = "all" then .ok .All
  else
    match collectE ((splitAll ',' s).map fun part =>
        match rustParseU32 part with
        | some v => (.ok v : Except Error Nat)
        | none => .error .ParseFailure) with
    | .ok ps => .ok (.List ps)
    | .error e => .error e

/-- One configured CLI listener (`src/responses.rs`). -/
structure CliSocket (A B : Type) where
  address : CliSocketAddr A B
  level : Level
  processes : CliSocketProcesses
deriving DecidableEq

/-- `impl FromStr for CliSocket`: exactly three space-separated fields,
parsed in order as address, level and process set. -/
def CliSocket.fromStr {A B : Type} (p4 : String → Option A) (p6 : String → Option B)
    (s : String) : Except Error (CliSocket A B) :=
  match splitn3s ' ' s with
  | [addrS, levelS, procS] =>
    match CliSocketAddr.fromStr p4 p6 addrS with
    | .error e => .error e
    | .ok addr =>
      match Level.fromStr levelS with
      | .error e => .error e
      | .ok lvl =>
        match CliSocketProcesses.fromStr procS with
        | .error e => .error e
        | .ok procs => .ok ⟨addr, lvl, procs⟩
  | _ => .error .ParseFailure

/-- Whether a line survives the comment/blank filter. -/
def keepLine (l : String) : Bool :=
  !(decide (l = "") || strStartsWith l "#")

/-- `skip_comment_or_empty_lines` (src/parsers.rs): the filter keeps an item
exactly when the negated closure holds; for an `Err` item the closure's
`map(...).unwrap_or(true)` yields `true`, so the negation drops it. -/
def skip_comment_or_empty_lines (stream : List (Except IoErr String)) :
    List (Except IoErr String) :=
  stream.filter fun r =>
    match r with
    | .ok line => keepLine line
    | .error _ => false

/-- Per-item closure of `parse_acl_list`: `map_err(Error::from)` then
`and_then(Acl::from_str)`. -/
def aclLine (r : Except IoErr String) : Except Error Acl :=
  match r with
  | .error e => .error (.IoError e)
  | .ok line => Acl.fromStr line

/-- `parse_acl_list` (src/parsers.rs). -/
def parse_acl_list (stream : List (Except IoErr String)) : Except Error (List Acl) :=
  collectE ((skip_comment_or_empty_lines stream).map aclLine)

/-- Per-item closure of `parse_acl_entries`. -/
def entryLine {V E : Type} (p : String → Except E V) (r : Except IoErr String) :
    Except Error (AclEntry V) :=
  match r with
  | .error e => .error (.IoError e)
  | .ok line => AclEntry.fromStr p line

/-- `parse_acl_entries` (src/parsers.rs): peek the first filtered item; when
it is an `Ok` line starting with `Unknown ACL identifier`, short-circuit;
otherwise map every filtered item through the entry parser and collect. -/
def parse_acl_entries {V E : Type} (p : String → Except E V)
    (stream : List (Except IoErr String)) : Except Error (List (AclEntry V)) :=
  match (skip_comment_or_empty_lines stream).head? with
  | some (.ok line) =>
    if strStartsWith line "Unknown ACL identifier" then .error .UnknownId
    else collectE ((skip_comment_or_empty_lines stream).map (entryLine p))
  | _ => collectE ((skip_comment_or_empty_lines stream).map (entryLine p))

/-- Per-item closure of `parse_cli_sockets`. -/
def socketLine {A B : Type} (p4 : String → Option A) (p6 : String → Option B)
    (r : Except IoErr String) : Except Error (CliSocket A B) :=
  match r with
  | .error e => .error (.IoError e)
  | .ok line => CliSocket.fromStr p4 p6 line

/-- `parse_cli_sockets` (src/parsers.rs). -/
def parse_cli_sockets {A B : Type} (p4 : String → Option A) (p6 : String → Option B)
    (stream : List (Except IoErr String)) : Except Error (List (CliSocket A B)) :=
  collectE ((skip_comment_or_empty_lines stream).map (socketLine p4 p6))

/-- `parse_acl_add` (src/parsers.rs): one `read_line` result (line including
its newline); classify the text. -/
def parse_acl_add (r : Except IoErr String) : Except Error Unit :=
  match r with
  | .error e => .error (.IoError e)
  | .ok buf =>
    if buf = "\n" then .ok ()
    else if strStartsWith buf "'add acl' expects two parameters" then .error .MissingParameters
    else if strStartsWith buf "Unknown ACL identifier" then .error .UnknownId
    else .error .ParseFailure

/-- `parse_errors` (src/parsers.rs): one `read_line` result; pop the final
character, take `rsplitn(2, ' ').next()` and parse it as a `u32`. -/
def parse_errors (r : Except IoErr String) : Except Error Nat :=
  match r with
  | .error e => .error (.IoError e)
  | .ok buf =>
    let buf2 := strDropLast buf
    match (rsplitn2s ' ' buf2).head? with
    | none => .error .ParseFailure
    | some count =>
      match rustParseU32 count with
      | some n => .ok n
      | none => .error .ParseFailure

/-- The token `rsplitn(2, ' ').next()` yields: the text after the last space,
or the whole string when it has no space. -/
def lastToken (s : String) : String :=
  (rsplitn2s ' ' s).headD ""

/-- Backend selector of `show errors` (src/requests.rs). -/
inductive BackendId : Type where
  | All : BackendId
  | Id : Int → BackendId
  | Name : String → BackendId
deriving DecidableEq

/-- Decimal rendering of an `i32` (Rust `Display` for `i32`). -/
def i32ToString (n : Int) : String :=
  if n < 0 then "-" ++ String.mk (Nat.toDigits 10 n.natAbs)
  else String.mk (Nat.toDigits 10 n.natAbs)

/-- `impl Display for BackendId` (src/requests.rs). -/
def BackendId.render : BackendId → String
  | .All => "-1"
  | .Name s => s
  | .Id n => i32ToString n

/-- Error class selector of `show errors` (src/requests.rs). -/
inductive ErrorFlag : Type where
  | All : ErrorFlag
  | Request : ErrorFlag
  | Response : ErrorFlag
deriving DecidableEq

/-- `show_errors_backend` (src/commands.rs): the exact text written to the
sink, `show errors {id}{error_type_str}`. -/
def show_errors_backend (id : BackendId) (flag : ErrorFlag) : String :=
  let error_type_str :=
    match flag with
    | .All => ""
    | .Request => " request"
    | .Response => " response"
  "show errors " ++ BackendId.render id ++ error_type_str

/-- Flag suffix as the specification describes it: empty for `All`, otherwise
a single leading space plus the flag word. -/
def errorFlagSuffix : ErrorFlag → String
  | .All => ""
  | .Request => " request"
  | .Response => " response"

/-! Supporting lemmas about the string and stream helpers. -/

theorem strmk_toList (s : String) : String.mk s.toList = s := by
  cases s
  rfl

theorem toList_append (s t : String) : (s ++ t).toList = s.toList ++ t.toList := rfl

theorem breakAt_of_not_mem (sep : Char) :
    ∀ cs : List Char, (∀ c ∈ cs, c ≠ sep) → breakAt sep cs = none := by
  intro cs
  induction cs with
  | nil => intro _; rfl
  | cons c cs ih =>
    intro h
    have hc : c ≠ sep := h c (List.mem_cons_self c cs)
    have hrest := ih fun x hx => h x (List.mem_cons_of_mem c hx)
    simp [breakAt, hc, hrest]

theorem breakAt_split (sep : Char) :
    ∀ (l₁ l₂ : List Char), (∀ c ∈ l₁, c ≠ sep) →
      breakAt sep (l₁ ++ sep :: l₂) = some (l₁, l₂) := by
  intro l₁
  induction l₁ with
  | nil => intro l₂ _; simp [breakAt]
  | cons c cs ih =>
    intro l₂ h
    have hc : c ≠ sep := h c (List.mem_cons_self c cs)
    have hrest := ih l₂ fun x hx => h x (List.mem_cons_of_mem c hx)
    simp [breakAt, hc, hrest]

theorem splitn2_cons (sep : Char) (cs : List Char) :
    ∃ a t, splitn2 sep cs = a :: t := by
  unfold splitn2
  cases h : breakAt sep cs with
  | none => exact ⟨cs, [], rfl⟩
  | some pq => exact ⟨pq.1, [pq.2], by simp⟩

theorem rsplitn2s_cons (sep : Char) (s : String) :
    ∃ a t, rsplitn2s sep s = a :: t := by
  obtain ⟨a, t, h⟩ := splitn2_cons sep s.toList.reverse
  refine ⟨String.mk a.reverse, t.map fun cs => String.mk cs.reverse, ?_⟩
  unfold rsplitn2s
  rw [h]
  rfl

theorem strDropLast_newline (s : String) : strDropLast (s ++ "\n") = s := by
  have h : (s ++ "\n").toList = s.toList ++ ['\n'] := rfl
  simp only [strDropLast, h, List.dropLast_concat, strmk_toList]

theorem lastToken_append (a b : String) (hb : ' ' ∉ b.toList) :
    lastToken (a ++ " " ++ b) = b := by
  have hrev : (a ++ " " ++ b).toList.reverse = b.toList.reverse ++ ' ' :: a.toList.reverse := by
    rw [toList_append, toList_append]
    simp
  have hbrev : ∀ c ∈ b.toList.reverse, c ≠ ' ' := by
    intro c hc he
    exact hb (by simpa [he] using List.mem_reverse.mp hc)
  unfold lastToken rsplitn2s splitn2
  rw [hrev, breakAt_split ' ' _ _ hbrev]
  simp [strmk_toList]

theorem lastToken_no_space (b : String) (hb : ' ' ∉ b.toList) : lastToken b = b := by
  have hbrev : ∀ c ∈ b.toList.reverse, c ≠ ' ' := by
    intro c hc he
    exact hb (by simpa [he] using List.mem_reverse.mp hc)
  unfold lastToken rsplitn2s splitn2
  rw [breakAt_of_not_mem ' ' b.toList.reverse hbrev]
  simp [strmk_toList]

theorem parse_errors_ok (buf : String) :
    parse_errors (.ok buf) =
      match rustParseU32 (lastToken (strDropLast buf)) with
      | some n => .ok n
      | none => .error .ParseFailure := by
  obtain ⟨a, t, h⟩ := rsplitn2s_cons ' ' (strDropLast buf)
  simp [parse_errors, lastToken, h]

/-! Theorems settling the claims. -/

/-- Claim C1 (corrected), counterexample to the claim as stated: the line
`100\n` contains no space, yet `parse_errors` succeeds with 100 instead of
failing with `ParseFailure`, because `rsplitn(2, ' ').next()` yields the
whole string when no space is present. -/
theorem claim1_counterexample :
    ("100\n" : String).toList.contains ' ' = false ∧ parse_errors (.ok "100\n") = .ok 100 := by
  constructor
  · decide
  · decide

/-- Claim C1 as amended: `parse_errors` reads exactly one line, strips the
trailing newline, and parses the token after the last space — the whole
stripped line when it has no space — as an unsigned 32-bit integer; it fails
with `ParseFailure` exactly when that token is not a valid `u32` (in
particular when the line is absent, the token being empty), and propagates a
transport error as `IoError`. -/
theorem claim1_theorem :
    (∀ s : String, parse_errors (.ok (s ++ "\n")) =
      match rustParseU32 (lastToken s) with
      | some n => .ok n
      | none => .error .ParseFailure) ∧
    parse_errors (.ok "") = .error .ParseFailure ∧
    (∀ e : IoErr, parse_errors (.error e) = .error (.IoError e)) ∧
    (∀ a b : String, ' ' ∉ b.toList → lastToken (a ++ " " ++ b) = b) ∧
    (∀ b : String, ' ' ∉ b.toList → lastToken b = b) := by
  refine ⟨?_, by decide, fun e => rfl, lastToken_append, lastToken_no_space⟩
  intro s
  rw [parse_errors_ok (s ++ "\n"), strDropLast_newline]

/-- Claim C1 witness: the amended theorem applied at concrete inputs. -/
theorem claim1_witness :
    lastToken ("Total events captured on [01/Jan/2020:03:15:05.071] :" ++ " " ++ "100") = "100" :=
  claim1_theorem.2.2.2.1 "Total events captured on [01/Jan/2020:03:15:05.071] :" "100" (by decide)

/-- Claim C2 (code bug): the filter closure of `skip_comment_or_empty_lines`
maps an `Err` item to `unwrap_or(true)` under a negation and therefore drops
it, so the three multi-line decoders silently discard transport errors
instead of propagating them as `IoError` — contradicting the comment in
`parse_cli_sockets` ("Convert io::Error to Error") and the dead
`map_err(Error::from)` in each decoder. This theorem evaluates the decoders
at failing inputs: each returns `Ok` although the stream contains an I/O
error. -/
theorem claim2_theorem :
    parse_acl_list [.error ⟨7⟩] = .ok [] ∧
    parse_acl_entries (fun s => (.ok s : Except Unit String)) [.error ⟨7⟩] = .ok [] ∧
    parse_cli_sockets (A := Unit) (B := Unit) (fun _ => none) (fun _ => none)
      [.error ⟨7⟩] = .ok [] ∧
    parse_acl_list [.ok "0 () x", .error ⟨7⟩, .ok "1 (t) y"] =
      .ok [⟨0, none, "x"⟩, ⟨1, some "t", "y"⟩] := by
  exact ⟨by decide, by decide, by decide, by decide⟩

theorem keepLine_false {c : String} (hc : c = "" ∨ strStartsWith c "#" = true) :
    keepLine c = false := by
  rcases hc with h | h
  · subst h; rfl
  · simp [keepLine, h]

theorem keepLine_true {l : String} (h1 : l ≠ "") (h2 : strStartsWith l "#" = false) :
    keepLine l = true := by
  simp [keepLine, h1, h2]

theorem skip_insert (pre post : List (Except IoErr String)) (c : String)
    (hc : c = "" ∨ strStartsWith c "#" = true) :
    skip_comment_or_empty_lines (pre ++ Except.ok c :: post) =
      skip_comment_or_empty_lines (pre ++ post) := by
  unfold skip_comment_or_empty_lines
  rw [List.filter_append, List.filter_append, List.filter_cons]
  simp [keepLine_false hc]

theorem skip_map_ok (ls : List String) :
    skip_comment_or_empty_lines (ls.map Except.ok) = (ls.filter keepLine).map Except.ok := by
  induction ls with
  | nil => rfl
  | cons l t ih =>
    unfold skip_comment_or_empty_lines at ih ⊢
    rw [List.map_cons, List.filter_cons, List.filter_cons]
    cases h : keepLine l <;> simp [h, ih]

theorem map_ok_map {γ : Type} (f : Except IoErr String → γ) (ms : List String) :
    (ms.map Except.ok).map f = ms.map fun l => f (Except.ok l) := by
  rw [List.map_map]
  rfl

theorem collectE_map_error {α β ε : Type} (f : α → Except ε β) :
    ∀ (xs : List α) (x : α), x ∈ xs → (∃ er, f x = .error er) →
      ∃ e, collectE (xs.map f) = .error e := by
  intro xs
  induction xs with
  | nil => intro x hx; cases hx
  | cons y t ih =>
    intro x hx hf
    cases hy : f y with
    | error e => exact ⟨e, by simp [collectE, hy]⟩
    | ok a =>
      rcases List.mem_cons.mp hx with rfl | hxt
      · obtain ⟨er, hfx⟩ := hf
        rw [hfx] at hy
        cases hy
      · obtain ⟨e, he⟩ := ih x hxt hf
        exact ⟨e, by simp [collectE, hy, he]⟩

/-- Claim C3 (confirmed): in each multi-line decoder, a blank or `#`-prefixed
line is skipped wherever it appears (so data lines after a skipped line are
still parsed, the result being that of the stream without the skipped line),
and one malformed data line makes the whole operation return an error — no
partial list is produced. -/
theorem claim3_theorem :
    (∀ (pre post : List (Except IoErr String)) (c : String),
      c = "" ∨ strStartsWith c "#" = true →
      parse_acl_list (pre ++ Except.ok c :: post) = parse_acl_list (pre ++ post)) ∧
    (∀ {V E : Type} (p : String → Except E V) (pre post : List (Except IoErr String))
      (c : String), c = "" ∨ strStartsWith c "#" = true →
      parse_acl_entries p (pre ++ Except.ok c :: post) = parse_acl_entries p (pre ++ post)) ∧
    (∀ {A B : Type} (p4 : String → Option A) (p6 : String → Option B)
      (pre post : List (Except IoErr String)) (c : String),
      c = "" ∨ strStartsWith c "#" = true →
      parse_cli_sockets p4 p6 (pre ++ Except.ok c :: post) =
        parse_cli_sockets p4 p6 (pre ++ post)) ∧
    (∀ (ls : List String) (l : String) (er : Error),
      l ∈ ls → l ≠ "" → strStartsWith l "#" = false → Acl.fromStr l = .error er →
      ∃ e, parse_acl_list (ls.map Except.ok) = .error e) ∧
    (∀ {V E : Type} (p : String → Except E V) (ls : List String) (l : String) (er : Error),
      l ∈ ls → l ≠ "" → strStartsWith l "#" = false → AclEntry.fromStr p l = .error er →
      ∃ e, parse_acl_entries p (ls.map Except.ok) = .error e) ∧
    (∀ {A B : Type} (p4 : String → Option A) (p6 : String → Option B)
      (ls : List String) (l : String) (er : Error),
      l ∈ ls → l ≠ "" → strStartsWith l "#" = false → CliSocket.fromStr p4 p6 l = .error er →
      ∃ e, parse_cli_sockets p4 p6 (ls.map Except.ok) = .error e) := by
  refine ⟨?_, ?_, ?_, ?_, ?_, ?_⟩
  · intro pre post c hc
    unfold parse_acl_list
    rw [skip_insert pre post c hc]
  · intro V E p pre post c hc
    unfold parse_acl_entries
    rw [skip_insert pre post c hc]
  · intro A B p4 p6 pre post c hc
    unfold parse_cli_sockets
    rw [skip_insert pre post c hc]
  · intro ls l er hmem h1 h2 hfs
    unfold parse_acl_list
    rw [skip_map_ok, map_ok_map]
    exact collectE_map_error _ _ l (List.mem_filter.mpr ⟨hmem, keepLine_true h1 h2⟩) ⟨er, hfs⟩
  · intro V E p ls l er hmem h1 h2 hfs
    have hlf : l ∈ ls.filter keepLine := List.mem_filter.mpr ⟨hmem, keepLine_true h1 h2⟩
    unfold parse_acl_entries
    rw [skip_map_ok, map_ok_map]
    cases hf : ls.filter keepLine with
    | nil => rw [hf] at hlf; cases hlf
    | cons hd tl =>
      rw [hf] at hlf
      by_cases hsw : strStartsWith hd "Unknown ACL identifier" = true
      · exact ⟨.UnknownId, by simp [hsw]⟩
      · have hsw' : strStartsWith hd "Unknown ACL identifier" = false :=
          Bool.eq_false_iff.mpr hsw
        obtain ⟨e, he⟩ :=
          collectE_map_error (fun l => entryLine p (Except.ok l)) (hd :: tl) l hlf ⟨er, hfs⟩
        refine ⟨e, ?_⟩
        simp only [List.map_cons] at he
        simp [hsw', he]
  · intro A B p4 p6 ls l er hmem h1 h2 hfs
    unfold parse_cli_sockets
    rw [skip_map_ok, map_ok_map]
    exact collectE_map_error _ _ l (List.mem_filter.mpr ⟨hmem, keepLine_true h1 h2⟩) ⟨er, hfs⟩

/-- Claim C3 witness: the theorem applied at concrete inputs — a comment line
is skipped in front of a data line, and a malformed data line after a good
one fails the whole listing. -/
theorem claim3_witness :
    parse_acl_list [Except.ok "# id (file) description", Except.ok "0 () x"] =
      parse_acl_list [Except.ok "0 () x"] ∧
    (∃ e, parse_acl_list [Except.ok "0 () x", Except.ok "1 ()"] = .error e) :=
  ⟨claim3_theorem.1 [] [Except.ok "0 () x"] "# id (file) description" (Or.inr (by decide)),
   claim3_theorem.2.2.2.1 ["0 () x", "1 ()"] "1 ()" Error.ParseFailure (by decide) (by decide)
     (by decide) (by decide)⟩

/-- Claim C6 (confirmed): `parse_acl_entries` inspects the first non-skipped
line; when it begins with `Unknown ACL identifier` the operation
short-circuits with `UnknownId` without parsing data rows, otherwise every
non-skipped line (the first included) is parsed as an `AclEntry` and the
entries are collected in order. -/
theorem claim6_theorem {V E : Type} (p : String → Except E V) (ls : List String) :
    (∀ hd tl, ls.filter keepLine = hd :: tl →
      strStartsWith hd "Unknown ACL identifier" = true →
      parse_acl_entries p (ls.map Except.ok) = .error .UnknownId) ∧
    (∀ hd tl, ls.filter keepLine = hd :: tl →
      strStartsWith hd "Unknown ACL identifier" = false →
      parse_acl_entries p (ls.map Except.ok) =
        collectE ((ls.filter keepLine).map fun l => AclEntry.fromStr p l)) ∧
    (ls.filter keepLine = [] → parse_acl_entries p (ls.map Except.ok) = .ok []) := by
  refine ⟨?_, ?_, ?_⟩
  · intro hd tl hf hsw
    unfold parse_acl_entries
    rw [skip_map_ok, hf]
    simp [hsw]
  · intro hd tl hf hsw
    unfold parse_acl_entries
    rw [skip_map_ok, map_ok_map, hf]
    simp only [List.map_cons, List.head?_cons, hsw]
    rfl
  · intro hf
    unfold parse_acl_entries
    rw [skip_map_ok, hf]
    rfl

/-- Claim C10 (confirmed): `parse_errors` unconditionally removes the final
character of the line it read before splitting and parsing, whether or not
that character is a newline; on the non-newline-terminated line
`errors : 100` the parsed count is 10, the final `0` having been removed. -/
theorem claim10_theorem :
    (∀ s : String, parse_errors (.ok s) =
      match rustParseU32 (lastToken (strDropLast s)) with
      | some n => .ok n
      | none => .error .ParseFailure) ∧
    parse_errors (.ok "errors : 100") = .ok 10 := by
  exact ⟨parse_errors_ok, by decide⟩

/-- Claim C6 witness: the theorem applied at concrete inputs, with the value
parsed as a raw string. -/
theorem claim6_witness :
    parse_acl_entries (fun w => (.ok w : Except Unit String))
      [Except.ok "", Except.ok "Unknown ACL identifier. Please use #<id> or <file>."] =
      .error .UnknownId ∧
    parse_acl_entries (fun w => (.ok w : Except Unit String))
      [Except.ok "# hdr", Except.ok "0x12 abc"] =
      collectE ((["# hdr", "0x12 abc"].filter keepLine).map
        fun l => AclEntry.fromStr (fun w => (.ok w : Except Unit String)) l) :=
  ⟨(claim6_theorem (fun w => (.ok w : Except Unit String))
      ["", "Unknown ACL identifier. Please use #<id> or <file>."]).1
      "Unknown ACL identifier. Please use #<id> or <file>." [] (by decide) (by decide),
   (claim6_theorem (fun w => (.ok w : Except Unit String)) ["# hdr", "0x12 abc"]).2.1
      "0x12 abc" [] (by decide) (by decide)⟩

theorem startsWithL_head {p : Char} {ps cs : List Char}
    (h : startsWithL (p :: ps) cs = true) : ∃ t, cs = p :: t ∧ startsWithL ps t = true := by
  cases cs with
  | nil => cases h
  | cons c t =>
    simp only [startsWithL, Bool.and_eq_true, beq_iff_eq] at h
    exact ⟨t, by rw [h.1], h.2⟩

theorem strStartsWith_disjoint {s p q : String} {c d : Char} {u v : List Char}
    (hp : p.toList = c :: u) (hq : q.toList = d :: v) (hne : c ≠ d)
    (h : strStartsWith s p = true) : strStartsWith s q = false := by
  unfold strStartsWith at h ⊢
  rw [hp] at h
  obtain ⟨t, hcs, _⟩ := startsWithL_head h
  rw [hq, hcs]
  have hcc : (d == c) = false := beq_eq_false_iff_ne.mpr (Ne.symm hne)
  simp [startsWithL, hcc]

/-- Claim C4 (confirmed): `parse_acl_add` reads one line and classifies it: a
bare newline is success, a line beginning with the `'add acl' expects two
parameters` message is `MissingParameters`, a line beginning with
`Unknown ACL identifier` is `UnknownId`, and any other content (the absent
line, read as the empty string, included) is `ParseFailure`. -/
theorem claim4_theorem (s : String) :
    parse_acl_add (.ok "\n") = .ok () ∧
    (strStartsWith s "'add acl' expects two parameters" = true →
      parse_acl_add (.ok s) = .error .MissingParameters) ∧
    (strStartsWith s "Unknown ACL identifier" = true →
      parse_acl_add (.ok s) = .error .UnknownId) ∧
    (s ≠ "\n" → strStartsWith s "'add acl' expects two parameters" = false →
      strStartsWith s "Unknown ACL identifier" = false →
      parse_acl_add (.ok s) = .error .ParseFailure) ∧
    (∀ e : IoErr, parse_acl_add (.error e) = .error (.IoError e)) := by
  refine ⟨rfl, ?_, ?_, ?_, fun e => rfl⟩
  · intro h
    have hne : s ≠ "\n" := by
      intro he
      rw [he] at h
      exact absurd h (by decide)
    simp [parse_acl_add, hne, h]
  · intro h
    have hne : s ≠ "\n" := by
      intro he
      rw [he] at h
      exact absurd h (by decide)
    have hmp : strStartsWith s "'add acl' expects two parameters" = false :=
      strStartsWith_disjoint (c := 'U') (d := '\'')
        (u := "nknown ACL identifier".toList)
        (v := "add acl' expects two parameters".toList)
        (by decide) (by decide) (by decide) h
    simp [parse_acl_add, hne, hmp, h]
  · intro hne h2 h3
    simp [parse_acl_add, hne, h2, h3]

/-- Claim C4 witness: the theorem applied to the four concrete response
lines. -/
theorem claim4_witness :
    parse_acl_add (.ok "\n") = .ok () ∧
    parse_acl_add (.ok "'add acl' expects two parameters: ACL identifier and pattern.\n") =
      .error .MissingParameters ∧
    parse_acl_add (.ok "Unknown ACL identifier. Please use #<id> or <file>.\n") =
      .error .UnknownId ∧
    parse_acl_add (.ok "'abcd' is not a valid IPv4 or IPv6 address.\n") =
      .error .ParseFailure :=
  ⟨( claim4_theorem "x").1,
   ( claim4_theorem "'add acl' expects two parameters: ACL identifier and pattern.\n").2.1
     (by decide),
   ( claim4_theorem "Unknown ACL identifier. Please use #<id> or <file>.\n").2.2.1 (by decide),
   ( claim4_theorem "'abcd' is not a valid IPv4 or IPv6 address.\n").2.2.2.1 (by decide)
     (by decide) (by decide)⟩

theorem splitn2_length (sep : Char) (cs : List Char) : (splitn2 sep cs).length ≤ 2 := by
  unfold splitn2
  cases h : breakAt sep cs with
  | none => simp
  | some pq => simp

theorem splitn3s_length (sep : Char) (s : String) : (splitn3s sep s).length ≤ 3 := by
  unfold splitn3s splitn3
  cases h : breakAt sep s.toList with
  | none => simp
  | some pq =>
    obtain ⟨pre, post⟩ := pq
    have := splitn2_length sep post
    simp
    omega

/-- Claim C5 (confirmed): `Acl` parsing splits a line into at most 3
space-separated fields; with exactly 3 fields, a middle field of `()` gives
no reference, any other middle field of length at least 3 is stripped of its
first and last characters to give the reference, a shorter middle field
fails, and fewer than 3 fields fail with `ParseFailure`.  Success further
requires the id field to parse as an `i32`. -/
theorem claim5_theorem (s : String) :
    (splitn3s ' ' s).length ≤ 3 ∧
    ((splitn3s ' ' s).length < 3 → Acl.fromStr s = .error .ParseFailure) ∧
    (∀ i r d, splitn3s ' ' s = [i, r, d] →
      (r = "()" → Acl.fromStr s =
        match rustParseI32 i with
        | some n => .ok ⟨n, none, d⟩
        | none => .error .ParseFailure) ∧
      (r ≠ "()" → r.length < 3 → Acl.fromStr s = .error .ParseFailure) ∧
      (r ≠ "()" → 3 ≤ r.length → Acl.fromStr s =
        match rustParseI32 i with
        | some n => .ok ⟨n, some (stripEnds r), d⟩
        | none => .error .ParseFailure)) := by
  refine ⟨splitn3s_length ' ' s, ?_, ?_⟩
  · intro hlen
    unfold Acl.fromStr
    cases hs : splitn3s ' ' s with
    | nil => rfl
    | cons a t =>
      cases t with
      | nil => rfl
      | cons b t2 =>
        cases t2 with
        | nil => rfl
        | cons c t3 =>
          rw [hs] at hlen
          cases t3 with
          | nil => simp at hlen
          | cons d t4 => rfl
  · intro i r d hs
    unfold Acl.fromStr
    rw [hs]
    refine ⟨?_, ?_, ?_⟩
    · intro h
      cases hx : rustParseI32 i <;> simp [h, hx]
    · intro h1 h2
      simp [h1, h2]
    · intro h1 h2
      have h3 : ¬r.length < 3 := by omega
      cases hx : rustParseI32 i <;> simp [h1, h3, hx]

/-- Claim C5 witness: the theorem applied to the concrete lines `1 ()` (too
few fields) and `1 ( x` (middle field shorter than 3 characters). -/
theorem claim5_witness :
    Acl.fromStr "1 ()" = .error .ParseFailure ∧
    Acl.fromStr "1 ( x" = .error .ParseFailure :=
  ⟨( claim5_theorem "1 ()").2.1 (by decide),
   (( claim5_theorem "1 ( x").2.2 "1" "(" "x" (by decide)).2.1 (by decide) (by decide)⟩

/-- Claim C7 (confirmed): `AclEntry` parsing splits into at most 2
space-separated fields; the first must start with `0x` and its remainder is
parsed base-16 into the 64-bit id, the second goes through the caller-chosen
value parser; a missing `0x` prefix, and any value-parser failure (whatever
its error detail), yield `ParseFailure`. -/
theorem claim7_theorem {V E : Type} (p : String → Except E V) (s i v : String)
    (hs : splitn2s ' ' s = [i, v]) :
    (strStartsWith i "0x" = false → AclEntry.fromStr p s = .error .ParseFailure) ∧
    (strStartsWith i "0x" = true → AclEntry.fromStr p s =
      match rustParseU64Hex (strDrop 2 i) with
      | some n =>
        match p v with
        | .ok w => .ok ⟨n, w⟩
        | .error _ => .error .ParseFailure
      | none => .error .ParseFailure) ∧
    (∀ er : E, p v = .error er → AclEntry.fromStr p s = .error .ParseFailure) := by
  refine ⟨?_, ?_, ?_⟩
  · intro h
    unfold AclEntry.fromStr
    rw [hs]
    simp [h]
  · intro h
    unfold AclEntry.fromStr
    rw [hs]
    simp [h]
  · intro er her
    unfold AclEntry.fromStr
    rw [hs]
    by_cases h : strStartsWith i "0x" = true
    · cases hx : rustParseU64Hex (strDrop 2 i) <;> simp [h, hx, her]
    · simp [h]

/-- Claim C7 witness: the theorem applied to a concrete entry line without
the `0x` prefix and to one whose value the chosen parser rejects. -/
theorem claim7_witness :
    AclEntry.fromStr (fun w => if w = "bad" then (.error () : Except Unit String) else .ok w)
      "1234 127.0.0.1" = .error .ParseFailure ∧
    AclEntry.fromStr (fun w => if w = "bad" then (.error () : Except Unit String) else .ok w)
      "0x12 bad" = .error .ParseFailure :=
  ⟨(claim7_theorem (fun w => if w = "bad" then (.error () : Except Unit String) else .ok w)
      "1234 127.0.0.1" "1234" "127.0.0.1" (by decide)).1 (by decide),
   (claim7_theorem (fun w => if w = "bad" then (.error () : Except Unit String) else .ok w)
      "0x12 bad" "0x12" "bad" (by decide)).2.2 () (by decide)⟩

/-- Claim C8 (confirmed): `CliSocketAddr` parsing splits on the first `@` and
dispatches on the scheme — `unix` keeps the path, `ipv4`/`ipv6` go through
the respective socket-address parser (failure giving `ParseFailure`),
`sockpair`/`abns` keep the token, the bare literal `unknown` gives `Unknown`,
and any other scheme or bare token fails with `ParseFailure`. -/
theorem claim8_theorem {A B : Type} (p4 : String → Option A) (p6 : String → Option B)
    (s : String) :
    (∀ c v, splitn2s '@' s = [c, v] →
      (c = "unix" → CliSocketAddr.fromStr p4 p6 s = .ok (.Unix v)) ∧
      (c = "ipv4" → CliSocketAddr.fromStr p4 p6 s =
        match p4 v with
        | some a => .ok (.Ip (.v4 a))
        | none => .error .ParseFailure) ∧
      (c = "ipv6" → CliSocketAddr.fromStr p4 p6 s =
        match p6 v with
        | some b => .ok (.Ip (.v6 b))
        | none => .error .ParseFailure) ∧
      (c = "sockpair" → CliSocketAddr.fromStr p4 p6 s = .ok (.SocketPair v)) ∧
      (c = "abns" → CliSocketAddr.fromStr p4 p6 s = .ok (.AbstractSocket v)) ∧
      (c ≠ "unix" → c ≠ "ipv4" → c ≠ "ipv6" → c ≠ "sockpair" → c ≠ "abns" →
        CliSocketAddr.fromStr p4 p6 s = .error .ParseFailure)) ∧
    (∀ o, splitn2s '@' s = [o] →
      (o = "unknown" → CliSocketAddr.fromStr p4 p6 s = .ok .Unknown) ∧
      (o ≠ "unknown" → CliSocketAddr.fromStr p4 p6 s = .error .ParseFailure)) := by
  constructor
  · intro c v hs
    unfold CliSocketAddr.fromStr
    rw [hs]
    refine ⟨?_, ?_, ?_, ?_, ?_, ?_⟩
    · intro h
      simp [h]
    · intro h
      cases hp : p4 v <;> simp [h, hp]
    · intro h
      cases hp : p6 v <;> simp [h, hp]
    · intro h
      simp [h]
    · intro h
      simp [h]
    · intro h1 h2 h3 h4 h5
      simp [h1, h2, h3, h4, h5]
  · intro o hs
    unfold CliSocketAddr.fromStr
    rw [hs]
    constructor
    · intro h
      simp [h]
    · intro h
      simp [h]

/-- Claim C8 witness: the theorem applied to the concrete addresses of the
specification's examples (with trivial abstract address parsers). -/
theorem claim8_witness :
    CliSocketAddr.fromStr (A := Unit) (B := Unit) (fun _ => none) (fun _ => none)
      "unix@/var/run/haproxy.sock" = .ok (.Unix "/var/run/haproxy.sock") ∧
    CliSocketAddr.fromStr (A := Unit) (B := Unit) (fun _ => none) (fun _ => none)
      "unknown" = .ok .Unknown ∧
    CliSocketAddr.fromStr (A := Unit) (B := Unit) (fun _ => none) (fun _ => none)
      "bogus@x" = .error .ParseFailure :=
  ⟨((claim8_theorem (fun _ => none) (fun _ => none) "unix@/var/run/haproxy.sock").1
      "unix" "/var/run/haproxy.sock" (by decide)).1 rfl,
   ((claim8_theorem (fun _ => none) (fun _ => none) "unknown").2 "unknown" (by decide)).1 rfl,
   ((claim8_theorem (fun _ => none) (fun _ => none) "bogus@x").1 "bogus" "x"
      (by decide)).2.2.2.2.2 (by decide) (by decide) (by decide) (by decide) (by decide)⟩

/-- Claim C9 (confirmed): `show_errors_backend` writes exactly
`show errors ` followed by the rendered backend (`-1` for `All`, the decimal
digits for `Id`, the raw string for `Name`) followed by the flag suffix
(empty for `All`, otherwise one leading space plus the flag word); nothing
else — in particular no trailing newline — is appended by the command. -/
theorem claim9_theorem :
    (∀ b f, show_errors_backend b f =
      "show errors " ++ BackendId.render b ++ errorFlagSuffix f) ∧
    errorFlagSuffix .All = "" ∧
    errorFlagSuffix .Request = " request" ∧
    errorFlagSuffix .Response = " response" ∧
    BackendId.render .All = "-1" ∧
    (∀ s, BackendId.render (.Name s) = s) ∧
    (∀ n, BackendId.render (.Id n) = i32ToString n) := by
  refine ⟨?_, rfl, rfl, rfl, rfl, fun s => rfl, fun n => rfl⟩
  intro b f
  cases f <;> rfl

end Haptik
